import Mathlib

/-!
Shallow embedding of `src/aoc_solver/aoc_map.py`: the 8-way `Direction`
enumeration and the `AoCMap` grid/cursor with its `look`, `update`, `walk`
and `rotate` operations.  The polars `DataFrame` is modelled as a row-major
`List (List Int)` (cell `(col x, row y)` is `df[y][x]`); Python integers are
`Int`, and Python `%` and `//` on a positive right operand are `Int`'s `%`
and `/` (`Int.emod` and `Int.ediv`: for a positive divisor, Euclidean and
floor division and their remainders agree with Python's).
-/

inductive Direction : Type
  | N | NE | E | SE | S | SW | W | NW
deriving DecidableEq

def Direction.toNat : Direction → Nat
  | .N => 0
  | .NE => 1
  | .E => 2
  | .SE => 3
  | .S => 4
  | .SW => 5
  | .W => 6
  | .NW => 7

/-- The `Direction(n)` constructor of the `IntEnum`, applied in the source
only to arguments already reduced mod 8; made total here by an explicit
`% 8`. -/
def Direction.fromNat (n : Nat) : Direction :=
  match n % 8 with
  | 0 => .N
  | 1 => .NE
  | 2 => .E
  | 3 => .SE
  | 4 => .S
  | 5 => .SW
  | 6 => .W
  | _ => .NW

/-- `Direction((direction + 4) % 8)`, the reversal used by `look` (negative
steps) and `update` (negative offset). -/
def Direction.reverse (d : Direction) : Direction :=
  Direction.fromNat ((d.toNat + 4) % 8)

theorem Direction.toNat_lt (d : Direction) : d.toNat < 8 := by
  cases d <;> decide

theorem Direction.toNat_fromNat (n : Nat) : (Direction.fromNat n).toNat = n % 8 := by
  have h : n % 8 < 8 := Nat.mod_lt _ (by omega)
  unfold Direction.fromNat
  generalize n % 8 = r at h ⊢
  interval_cases r <;> rfl

theorem Direction.fromNat_toNat (d : Direction) : Direction.fromNat d.toNat = d := by
  cases d <;> rfl

/-! List-update primitives modelling in-place assignment into the
row-major grid. -/

def setAt {α : Type} (l : List α) (n : Nat) (v : α) : List α :=
  match l, n with
  | [], _ => []
  | _ :: xs, 0 => v :: xs
  | x :: xs, Nat.succ m => x :: setAt xs m v

def modifyAt {α : Type} (l : List α) (n : Nat) (f : α → α) : List α :=
  match l, n with
  | [], _ => []
  | x :: xs, 0 => f x :: xs
  | x :: xs, Nat.succ m => x :: modifyAt xs m f

theorem length_setAt {α : Type} (l : List α) (n : Nat) (v : α) :
    (setAt l n v).length = l.length := by
  induction l generalizing n with
  | nil => rfl
  | cons x xs ih => cases n <;> simp [setAt, ih]

theorem length_modifyAt {α : Type} (l : List α) (n : Nat) (f : α → α) :
    (modifyAt l n f).length = l.length := by
  induction l generalizing n with
  | nil => rfl
  | cons x xs ih => cases n <;> simp [modifyAt, ih]

theorem getD_setAt_self {α : Type} (l : List α) (n : Nat) (v d : α)
    (h : n < l.length) : (setAt l n v).getD n d = v := by
  induction l generalizing n with
  | nil => simp at h
  | cons x xs ih =>
      cases n with
      | zero => rfl
      | succ m => simpa [setAt] using ih m (by simpa using h)

theorem getD_setAt_other {α : Type} (l : List α) (n m : Nat) (v d : α)
    (h : m ≠ n) : (setAt l n v).getD m d = l.getD m d := by
  induction l generalizing n m with
  | nil => rfl
  | cons x xs ih =>
      cases n with
      | zero =>
          cases m with
          | zero => exact absurd rfl h
          | succ k => rfl
      | succ n2 =>
          cases m with
          | zero => rfl
          | succ k => simpa [setAt] using ih n2 k (by omega)

theorem getD_modifyAt_self {α : Type} (l : List α) (n : Nat) (f : α → α) (d : α)
    (h : n < l.length) : (modifyAt l n f).getD n d = f (l.getD n d) := by
  induction l generalizing n with
  | nil => simp at h
  | cons x xs ih =>
      cases n with
      | zero => rfl
      | succ m => simpa [modifyAt] using ih m (by simpa using h)

theorem getD_modifyAt_other {α : Type} (l : List α) (n m : Nat) (f : α → α) (d : α)
    (h : m ≠ n) : (modifyAt l n f).getD m d = l.getD m d := by
  induction l generalizing n m with
  | nil => rfl
  | cons x xs ih =>
      cases n with
      | zero =>
          cases m with
          | zero => exact absurd rfl h
          | succ k => rfl
      | succ n2 =>
          cases m with
          | zero => rfl
          | succ k => simpa [modifyAt] using ih n2 k (by omega)

/-- `self.df[y, x]` (read): the grid is row-major, so the row index comes
first.  All reads performed by the embedded operations under their stated
in-bounds hypotheses have nonnegative in-range indices. -/
def dfCell (df : List (List Int)) (yy xx : Int) : Int :=
  (df.getD yy.toNat []).getD xx.toNat 0

/-- `self.df[y, x] = v` (write). -/
def dfSet (df : List (List Int)) (yy xx : Int) (v : Int) : List (List Int) :=
  modifyAt df yy.toNat (fun row => setAt row xx.toNat v)

theorem dfCell_dfSet_self (df : List (List Int)) (yy xx : Int) (v : Int)
    (hy : yy.toNat < df.length) (hx : xx.toNat < (df.getD yy.toNat []).length) :
    dfCell (dfSet df yy xx v) yy xx = v := by
  unfold dfCell dfSet
  rw [getD_modifyAt_self _ _ _ _ hy]
  exact getD_setAt_self _ _ _ _ hx

theorem dfCell_dfSet_other (df : List (List Int)) (yy xx qy qx : Int) (v : Int)
    (h : yy.toNat ≠ qy.toNat ∨ xx.toNat ≠ qx.toNat) :
    dfCell (dfSet df yy xx v) qy qx = dfCell df qy qx := by
  unfold dfCell dfSet
  rcases h with h | h
  · rw [getD_modifyAt_other _ _ _ _ _ (by omega)]
  · by_cases hyq : qy.toNat = yy.toNat
    · by_cases hlen : yy.toNat < df.length
      · rw [hyq, getD_modifyAt_self _ _ _ _ hlen,
          getD_setAt_other _ _ _ _ _ (by omega)]
      · have h1 : (modifyAt df yy.toNat (fun row => setAt row xx.toNat v)).getD
            qy.toNat [] = [] := by
          apply List.getD_eq_default
          rw [length_modifyAt]
          omega
        have h2 : df.getD qy.toNat [] = [] := List.getD_eq_default _ _ (by omega)
        rw [h1, h2]
    · rw [getD_modifyAt_other _ _ _ _ _ hyq]

theorem length_dfSet (df : List (List Int)) (yy xx : Int) (v : Int) :
    (dfSet df yy xx v).length = df.length := length_modifyAt ..

theorem rowLength_dfSet (df : List (List Int)) (yy xx : Int) (v : Int) (j : Nat) :
    ((dfSet df yy xx v).getD j []).length = (df.getD j []).length := by
  unfold dfSet
  by_cases hj : j = yy.toNat
  · by_cases hlen : yy.toNat < df.length
    · rw [hj, getD_modifyAt_self _ _ _ _ hlen, length_setAt]
    · have h1 : (modifyAt df yy.toNat (fun row => setAt row xx.toNat v)).getD
          j [] = [] := by
        apply List.getD_eq_default
        rw [length_modifyAt]
        omega
      have h2 : df.getD j [] = [] := List.getD_eq_default _ _ (by omega)
      rw [h1, h2]
  · rw [getD_modifyAt_other _ _ _ _ _ hj]

/-- The `AoCMap` dataclass: a polars `DataFrame` grid plus a cursor
`(x, y)` and a compass `heading` (defaults `0, 0, N`). -/
structure AoCMap where
  df : List (List Int)
  x : Int := 0
  y : Int := 0
  heading : Direction := Direction.N
deriving DecidableEq

/-- `x_max`: the number of columns, `df.shape`'s second component. -/
def AoCMap.x_max (m : AoCMap) : Int :=
  ((m.df.headD []).length : Int)

/-- `y_max`: the number of rows, `df.shape`'s first component. -/
def AoCMap.y_max (m : AoCMap) : Int :=
  (m.df.length : Int)

/-- `encloses(x, y)`: `x in range(x_max) and y in range(y_max)`. -/
def AoCMap.encloses (m : AoCMap) (x y : Int) : Bool :=
  decide (0 ≤ x ∧ x < m.x_max) && decide (0 ≤ y ∧ y < m.y_max)

/-- The error raised by the bounds checks in `__getitem__` and the
`position` setter. -/
inductive MapError : Type
  | OutOfBounds
deriving DecidableEq

/-- `__getitem__(indices)`: bounds-checked read of `df[y, x]`. -/
def AoCMap.getItem (m : AoCMap) (x y : Int) : Except MapError Int :=
  if ¬ (0 ≤ x ∧ x < m.x_max) ∨ ¬ (0 ≤ y ∧ y < m.y_max) then
    Except.error MapError.OutOfBounds
  else
    Except.ok (dfCell m.df y x)

/-- The `position` setter: bounds-checked assignment of the cursor; on
failure the map (hence the cursor) is untouched. -/
def AoCMap.setPosition (m : AoCMap) (value : Int × Int) : Except MapError AoCMap :=
  if ¬ m.encloses value.1 value.2 then
    Except.error MapError.OutOfBounds
  else
    Except.ok { m with x := value.1, y := value.2 }

/-- Modelled from the spec: the Grid Store cell write `set(col, row, value)`.
In the source this is indexed assignment on the polars `DataFrame`
(`self.df[y, x] = value`), library code that is not under `src/`; per the
spec it shares `get`'s bounds contract — it fails with OutOfBounds when the
coordinate falls outside `[0, width) x [0, height)` and otherwise mutates
exactly one cell in place. -/
def AoCMap.setItem (m : AoCMap) (x y : Int) (v : Int) : Except MapError AoCMap :=
  if ¬ (0 ≤ x ∧ x < m.x_max) ∨ ¬ (0 ≤ y ∧ y < m.y_max) then
    Except.error MapError.OutOfBounds
  else
    Except.ok { m with df := dfSet m.df y x v }

/-- Python `min(steps, v)` where `steps` may be the sentinel `math.inf`
(`none`, installed when the `steps` argument is omitted): `min(inf, v) = v`
for every finite `v`. -/
def omin : Option Int → Int → Int
  | none, v => v
  | some s, v => min s v

/-- Python `range(1, n + 1)` as a list of `Int` (empty when `n ≤ 0`). -/
def rangeFrom1 (n : Int) : List Int :=
  (List.range n.toNat).map (fun i : Nat => (i : Int) + 1)

/-- The body of `look` after the `steps == 0` and `steps < 0` branches have
been resolved: the per-axis clipped `max_steps_*` bounds followed by the
8-way dispatch on the (already resolved) direction. -/
def AoCMap.lookScan (m : AoCMap) (steps : Option Int) (d : Direction) : List Int :=
  let max_steps_N := omin steps m.y
  let max_steps_E := omin steps ((m.x_max - 1) - m.x)
  let max_steps_S := omin steps ((m.y_max - 1) - m.y)
  let max_steps_W := omin steps m.x
  match d with
  | .N => (rangeFrom1 max_steps_N).map (fun i => dfCell m.df (m.y - i) m.x)
  | .NE => (rangeFrom1 (min max_steps_N max_steps_E)).map
      (fun i => dfCell m.df (m.y - i) (m.x + i))
  | .E => (rangeFrom1 max_steps_E).map (fun i => dfCell m.df m.y (m.x + i))
  | .SE => (rangeFrom1 (min max_steps_S max_steps_E)).map
      (fun i => dfCell m.df (m.y + i) (m.x + i))
  | .S => (rangeFrom1 max_steps_S).map (fun i => dfCell m.df (m.y + i) m.x)
  | .SW => (rangeFrom1 (min max_steps_S max_steps_W)).map
      (fun i => dfCell m.df (m.y + i) (m.x - i))
  | .W => (rangeFrom1 max_steps_W).map (fun i => dfCell m.df m.y (m.x - i))
  | .NW => (rangeFrom1 (min max_steps_N max_steps_W)).map
      (fun i => dfCell m.df (m.y - i) (m.x - i))

/-- The two result shapes of `look`: for `steps == 0` a single bare cell
value, otherwise a list of cell values.  (The `None` returned for a
malformed direction cannot arise here: `Direction` is a closed
enumeration.) -/
inductive LookResult : Type
  | single (v : Int)
  | scan (vs : List Int)
deriving DecidableEq

/-- `look(steps, direction)`: `steps` defaults to `math.inf` (`none`),
`direction` defaults to the current heading; `steps == 0` returns the bare
cursor cell; negative `steps` reverses the direction and continues with
`abs(steps)`. -/
def AoCMap.look (m : AoCMap) (steps : Option Int) (direction : Option Direction) :
    LookResult :=
  let d := direction.getD m.heading
  match steps with
  | none => LookResult.scan (m.lookScan none d)
  | some s =>
    if s = 0 then LookResult.single (dfCell m.df m.y m.x)
    else if s < 0 then LookResult.scan (m.lookScan (some (-s)) d.reverse)
    else LookResult.scan (m.lookScan (some s) d)

/-- `len(...)` applied to the result of `look`, as `walk` does: on a list it
is the length, on the bare cell value (an integer) Python raises
`TypeError`, modelled by `none`. -/
def lenLook : LookResult → Option Nat
  | LookResult.single _ => none
  | LookResult.scan vs => some vs.length

/-- One directional write loop of `update`: `for i in range(n):
df[py i, px i] = values[i]`. -/
def writeCells (df : List (List Int)) (values : List Int) (py px : Nat → Int)
    (n : Nat) : List (List Int) :=
  (List.range n).foldl (fun acc i => dfSet acc (py i) (px i) (values.getD i 0)) df

/-- `update(values, offset, direction)`: destructive directional write.
`steps = len(values)`; a negative `offset` reverses the direction and
continues with `abs(offset)`; per-axis `max_steps_*` clip how many of
`values` fit, then the 8-way dispatch writes `values[i]` at
`offset + i` steps from the cursor. -/
def AoCMap.update (m : AoCMap) (values : List Int) (offset : Int)
    (direction : Option Direction) : AoCMap :=
  let steps : Int := (values.length : Int)
  let d0 := direction.getD m.heading
  let d := if offset < 0 then d0.reverse else d0
  let off := if offset < 0 then -offset else offset
  let max_steps_N := min steps (m.y + 1 - off)
  let max_steps_E := min steps (m.x_max - m.x - off)
  let max_steps_S := min steps (m.y_max - m.y - off)
  let max_steps_W := min steps (m.x + 1 - off)
  match d with
  | .N => { m with df := (writeCells m.df values
      (fun i => m.y - (i : Int) - off) (fun _ => m.x) max_steps_N.toNat) }
  | .NE => { m with df := (writeCells m.df values
      (fun i => m.y - (i : Int) - off) (fun i => m.x + (i : Int) + off)
      (min max_steps_N max_steps_E).toNat) }
  | .E => { m with df := (writeCells m.df values
      (fun _ => m.y) (fun i => m.x + (i : Int) + off) max_steps_E.toNat) }
  | .SE => { m with df := (writeCells m.df values
      (fun i => m.y + (i : Int) + off) (fun i => m.x + (i : Int) + off)
      (min max_steps_S max_steps_E).toNat) }
  | .S => { m with df := (writeCells m.df values
      (fun i => m.y + (i : Int) + off) (fun _ => m.x) max_steps_S.toNat) }
  | .SW => { m with df := (writeCells m.df values
      (fun i => m.y + (i : Int) + off) (fun i => m.x - (i : Int) - off)
      (min max_steps_S max_steps_W).toNat) }
  | .W => { m with df := (writeCells m.df values
      (fun _ => m.y) (fun i => m.x - (i : Int) - off) max_steps_W.toNat) }
  | .NW => { m with df := (writeCells m.df values
      (fun i => m.y - (i : Int) - off) (fun i => m.x - (i : Int) - off)
      (min max_steps_N max_steps_W).toNat) }

/-- `walk(steps, direction)`: `path_length = min(steps,
len(self.look(steps, direction)))`, then move the cursor along the resolved
direction.  `len` of the bare value returned by `look` when `steps == 0`
raises, so `walk` is fallible. -/
def AoCMap.walk (m : AoCMap) (steps : Int) (direction : Option Direction) :
    Option AoCMap :=
  let d := direction.getD m.heading
  match lenLook (m.look (some steps) (some d)) with
  | none => none
  | some l =>
    let path_length := min steps (l : Int)
    some (match d with
      | .N => { m with y := m.y - path_length }
      | .NE => { m with x := m.x + path_length, y := m.y - path_length }
      | .E => { m with x := m.x + path_length }
      | .SE => { m with x := m.x + path_length, y := m.y + path_length }
      | .S => { m with y := m.y + path_length }
      | .SW => { m with x := m.x - path_length, y := m.y + path_length }
      | .W => { m with x := m.x - path_length }
      | .NW => { m with x := m.x - path_length, y := m.y - path_length })

/-- Truncation toward zero (Python `int(...)`) of `t / 2` for an integer
`t`; `int(q ± 0.5)` in `rotate` is exactly `pyTruncHalf (2 * q ± 1)` — the
float arithmetic there (an integer plus or minus `0.5`) is exact for
`|q| < 2 ^ 52`, the range modelled here. -/
def pyTruncHalf (t : Int) : Int :=
  if 0 ≤ t then t / 2 else -((-t) / 2)

/-- `rotate(degrees)`: `sign_adjustment = 0.5 if degrees > 0 else -0.5`;
`heading = Direction((heading + int(degrees // 45 + sign_adjustment)) % 8)`.
The `± 0.5` and the final `int` are encoded exactly by `pyTruncHalf` on
`2 * (degrees // 45) ± 1`. -/
def AoCMap.rotate (m : AoCMap) (degrees : Int) : AoCMap :=
  let sign_adjustment : Int := if 0 < degrees then 1 else -1
  let steps := pyTruncHalf (2 * (degrees / 45) + sign_adjustment)
  { m with heading :=
      (Direction.fromNat (((m.heading.toNat : Int) + steps) % 8).toNat) }

/-! Specification-side vocabulary used to state the claims: unit direction
vectors, remaining distances to the boundary, and the described scan. -/

/-- Unit step of a compass direction along the x (column) axis. -/
def dirDx : Direction → Int
  | .N => 0
  | .NE => 1
  | .E => 1
  | .SE => 1
  | .S => 0
  | .SW => -1
  | .W => -1
  | .NW => -1

/-- Unit step of a compass direction along the y (row) axis (north is
toward row 0). -/
def dirDy : Direction → Int
  | .N => -1
  | .NE => -1
  | .E => 0
  | .SE => 1
  | .S => 1
  | .SW => 1
  | .W => 0
  | .NW => -1

/-- Column of the cell `k` steps away from the cursor in direction `d`. -/
def stepX (m : AoCMap) (d : Direction) (k : Int) : Int :=
  m.x + dirDx d * k

/-- Row of the cell `k` steps away from the cursor in direction `d`. -/
def stepY (m : AoCMap) (d : Direction) (k : Int) : Int :=
  m.y + dirDy d * k

/-- Steps available from the cursor to the grid boundary in direction `d`;
for a diagonal direction, the minimum of the two axis-wise remaining
distances. -/
def availSteps (m : AoCMap) (d : Direction) : Int :=
  match d with
  | .N => m.y
  | .E => (m.x_max - 1) - m.x
  | .S => (m.y_max - 1) - m.y
  | .W => m.x
  | .NE => min m.y ((m.x_max - 1) - m.x)
  | .SE => min ((m.y_max - 1) - m.y) ((m.x_max - 1) - m.x)
  | .SW => min ((m.y_max - 1) - m.y) m.x
  | .NW => min m.y m.x

/-- Number of in-grid cells at distances `off, off + 1, ...` from the
cursor in direction `d` (the steps available "beyond the offset"). -/
def availBeyond (m : AoCMap) (off : Int) (d : Direction) : Int :=
  match d with
  | .N => m.y + 1 - off
  | .E => m.x_max - m.x - off
  | .S => m.y_max - m.y - off
  | .W => m.x + 1 - off
  | .NE => min (m.y + 1 - off) (m.x_max - m.x - off)
  | .SE => min (m.y_max - m.y - off) (m.x_max - m.x - off)
  | .SW => min (m.y_max - m.y - off) (m.x + 1 - off)
  | .NW => min (m.y + 1 - off) (m.x + 1 - off)

/-- The ordered sequence the spec describes for `look`: the cell values
located `1, 2, ..., k` steps from the cursor in direction `d`. -/
def lookSpecList (m : AoCMap) (k : Int) (d : Direction) : List Int :=
  (List.range k.toNat).map
    (fun i : Nat =>
      dfCell m.df (stepY m d ((i : Int) + 1)) (stepX m d ((i : Int) + 1)))

/-- The grid is rectangular (every row has `x_max` cells), as a polars
`DataFrame` always is. -/
def IsRect (m : AoCMap) : Prop :=
  ∀ r ∈ m.df, (r.length : Int) = m.x_max

/-- The cursor lies inside the grid. -/
def InBounds (m : AoCMap) : Prop :=
  0 ≤ m.x ∧ m.x < m.x_max ∧ 0 ≤ m.y ∧ m.y < m.y_max

instance (m : AoCMap) : Decidable (IsRect m) := by
  unfold IsRect
  infer_instance

instance (m : AoCMap) : Decidable (InBounds m) := by
  unfold InBounds
  infer_instance

/-- The degree-to-step conversion that claim C5 attributes to `rotate`:
round half away from zero of `degrees / 45`, i.e. `floor(degrees/45 + 0.5)`
for positive `degrees` and `ceil(degrees/45 - 0.5)` for negative
`degrees`. -/
def roundHalfAwaySteps (degrees : Int) : Int :=
  if 0 < degrees then (2 * degrees + 45) / 90
  else if degrees < 0 then -((45 - 2 * degrees) / 90)
  else 0

/-- A 3 x 3 grid with the cursor at its centre, used to instantiate
hypotheses of the claims at a concrete input. -/
def sampleMap : AoCMap :=
  { df := [[0, 1, 2], [3, 4, 5], [6, 7, 8]], x := 1, y := 1,
    heading := Direction.N }

/-- A 1 x 1 grid with the cursor on its only cell. -/
def tinyMap : AoCMap :=
  { df := [[0]], x := 0, y := 0, heading := Direction.N }

/-- The 8 x 10 demonstration grid of the source's `__main__` block: cell
`(col, row)` holds `10 * col + row`. -/
def demoMap : AoCMap :=
  { df := (List.range 10).map (fun j => (List.range 8).map
      (fun i => 10 * (i : Int) + (j : Int))),
    x := 0, y := 0, heading := Direction.N }

example : demoMap.look none (some Direction.E) =
    LookResult.scan [10, 20, 30, 40, 50, 60, 70] := by decide
example : demoMap.walk 2 (some Direction.E) =
    some { demoMap with x := 2 } := by decide
example : ({ demoMap with x := 2 } : AoCMap).look (some 4) (some Direction.SE) =
    LookResult.scan [31, 42, 53, 64] := by decide
example : ({ demoMap with x := 2 } : AoCMap).walk 4 (some Direction.SE) =
    some { demoMap with x := 6, y := 4 } := by decide
example : (tinyMap.rotate 45).heading = Direction.NE := by decide
example : (tinyMap.rotate (-45)).heading = Direction.NW := by decide
example : (tinyMap.rotate 23).heading = Direction.N := by decide
example : (tinyMap.rotate (-22)).heading = Direction.NW := by decide
example : roundHalfAwaySteps 23 = 1 := by decide
example : roundHalfAwaySteps (-22) = 0 := by decide
example : roundHalfAwaySteps (-23) = -1 := by decide
example : (({ demoMap with y := 9 } : AoCMap).update
    [90, 91, 92, 93, 94, 95, 96, 97, 98, 99] 0 (some Direction.N)).getItem 0 0 =
    Except.ok 99 := by rfl
example : tinyMap.walk 0 (some Direction.E) = none := by decide
example : tinyMap.walk (-1) (some Direction.E) =
    some { tinyMap with x := -1 } := by decide

/-! Helper lemmas about `rotate`. -/

theorem rotate_steps_eq (degrees : Int) :
    pyTruncHalf (2 * (degrees / 45) + (if 0 < degrees then 1 else -1)) =
      degrees / 45 := by
  unfold pyTruncHalf
  by_cases h : 0 < degrees
  · rw [if_pos h, if_pos (show (0 : Int) ≤ 2 * (degrees / 45) + 1 by omega)]
    omega
  · rw [if_neg h, if_neg (show ¬ (0 : Int) ≤ 2 * (degrees / 45) + -1 by omega)]
    omega

theorem AoCMap.rotate_eq (m : AoCMap) (degrees : Int) :
    m.rotate degrees =
      { m with heading := (Direction.fromNat
          (((m.heading.toNat : Int) + degrees / 45) % 8).toNat) } := by
  show ({ m with heading := (Direction.fromNat
      (((m.heading.toNat : Int) + pyTruncHalf (2 * (degrees / 45) +
        (if 0 < degrees then 1 else -1))) % 8).toNat) } : AoCMap) = _
  rw [rotate_steps_eq]

/-- C10: `rotate(0)` leaves the heading and the cursor position unchanged —
a zero-degree rotation resolves to zero compass steps (the `-0.5`
adjustment taken by the `degrees > 0 else` branch is truncated away), so it
is an identity operation. -/
theorem rotate_zero_identity (m : AoCMap) : m.rotate 0 = m := by
  rw [AoCMap.rotate_eq]
  have hlt := m.heading.toNat_lt
  have h1 : (((m.heading.toNat : Int) + 0 / 45) % 8).toNat = m.heading.toNat := by
    omega
  rw [h1, Direction.fromNat_toNat]

/-- C5 (counterexample): at `degrees = 23` from heading N the code leaves
the heading at N, while the claimed round-half-away-from-zero rule
(`floor(23/45 + 0.5) = 1`) would turn it to NE. -/
theorem rotate_round_half_away_counterexample :
    (tinyMap.rotate 23).heading ≠ Direction.fromNat
      (((tinyMap.heading.toNat : Int) + roundHalfAwaySteps 23) % 8).toNat := by
  decide

/-- C5 (amended): for every heading and every `degrees`, `rotate(degrees)`
sets the heading to `Direction((heading + degrees // 45) mod 8)` — plain
floor division by 45; the `± 0.5` sign adjustment is cancelled by the
`int()` truncation because `degrees // 45` is already an integer — and the
cursor position is not moved. -/
theorem rotate_floor_div_spec (m : AoCMap) (degrees : Int) :
    (m.rotate degrees).heading = Direction.fromNat
      (((m.heading.toNat : Int) + degrees / 45) % 8).toNat ∧
    (m.rotate degrees).x = m.x ∧ (m.rotate degrees).y = m.y := by
  rw [AoCMap.rotate_eq]
  exact ⟨rfl, rfl, rfl⟩

/-- C7 (counterexample): `rotate(1)` resolves to 0 steps but `rotate(-1)`
resolves to `-1 // 45 = -1` steps, so the pair does not restore the
heading. -/
theorem rotate_inverse_counterexample :
    ((tinyMap.rotate 1).rotate (-1)).heading ≠ tinyMap.heading := by
  decide

/-- C7 (amended): `rotate(360)` restores every heading; from heading N,
`rotate(45)` yields NE and `rotate(-45)` yields NW; and `rotate(d)`
followed by `rotate(-d)` restores the heading whenever `d` is a multiple of
45 (for other deltas the two floor divisions do not cancel). -/
theorem rotate_inverse_spec (m : AoCMap) :
    (m.rotate 360).heading = m.heading ∧
    (m.heading = Direction.N →
      (m.rotate 45).heading = Direction.NE ∧
      (m.rotate (-45)).heading = Direction.NW) ∧
    ∀ k : Int, ((m.rotate (45 * k)).rotate (-(45 * k))).heading = m.heading := by
  have hlt := m.heading.toNat_lt
  refine ⟨?_, ?_, ?_⟩
  · rw [AoCMap.rotate_eq]
    have h1 : (((m.heading.toNat : Int) + 360 / 45) % 8).toNat =
        m.heading.toNat := by omega
    rw [h1, Direction.fromNat_toNat]
  · intro hN
    rw [AoCMap.rotate_eq, AoCMap.rotate_eq, hN]
    exact ⟨rfl, rfl⟩
  · intro k
    rw [AoCMap.rotate_eq, AoCMap.rotate_eq]
    dsimp only
    rw [Direction.toNat_fromNat]
    have e1 : (45 * k) / 45 = k := by omega
    have e2 : -(45 * k) / 45 = -k := by omega
    rw [e1, e2]
    have h2 : ((((((m.heading.toNat : Int) + k) % 8).toNat % 8 : Nat) : Int) +
        -k) % 8 = (m.heading.toNat : Int) := by omega
    rw [h2]
    have h3 : ((m.heading.toNat : Int)).toNat = m.heading.toNat := by omega
    rw [h3, Direction.fromNat_toNat]

/-- C9: `walk(0, d)` fails with an error rather than acting as a no-op —
`walk` takes `len` of the `look` result, and `look` with `steps == 0`
returns the single bare cell value (not a list), on which `len` raises; for
every nonzero step count `walk` succeeds. -/
theorem walk_zero_raises (m : AoCMap) (d : Direction) :
    m.look (some 0) (some d) = LookResult.single (dfCell m.df m.y m.x) ∧
    m.walk 0 (some d) = none ∧
    ∀ s : Int, s ≠ 0 → (m.walk s (some d)).isSome = true := by
  refine ⟨rfl, rfl, ?_⟩
  intro s hs
  by_cases hneg : s < 0 <;>
    simp [AoCMap.walk, AoCMap.look, lenLook, hs, hneg]

theorem walk_zero_raises_witness :
    ((3 : Int) ≠ 0) ∧ ((sampleMap.walk 3 (some Direction.E)).isSome = true) :=
  ⟨by decide, (walk_zero_raises sampleMap Direction.E).2.2 3 (by decide)⟩

/-- C6: for an in-bounds cursor and `s > 0`, `look(-s, d)` equals
`look(s, reverse(d))`, where `reverse(d) = (d + 4) mod 8`. -/
theorem look_negative_reversal (m : AoCMap) (d : Direction) (s : Int)
    (hin : InBounds m) (hs : 0 < s) :
    m.look (some (-s)) (some d) = m.look (some s) (some d.reverse) := by
  unfold AoCMap.look
  dsimp only [Option.getD_some]
  rw [if_neg (show ¬ (-s = 0) by omega), if_pos (show -s < 0 by omega),
    if_neg (show ¬ (s = 0) by omega), if_neg (show ¬ (s < 0) by omega), neg_neg]

theorem look_negative_reversal_witness :
    InBounds sampleMap ∧ ((0 : Int) < 1) ∧
    sampleMap.look (some (-1)) (some Direction.N) =
      sampleMap.look (some 1) (some Direction.N.reverse) :=
  ⟨by decide, by decide,
    look_negative_reversal sampleMap Direction.N 1 (by decide) (by decide)⟩

/-! Helper lemmas about `look` and `walk`. -/

theorem map_range_ext (n1 n2 : Nat) (f g : Nat → Int) (hn : n1 = n2)
    (hf : ∀ i, f i = g i) : (List.range n1).map f = (List.range n2).map g := by
  subst hn
  have : f = g := funext hf
  rw [this]

theorem dfCell_congr (df : List (List Int)) (a a2 b b2 : Int) (ha : a = a2)
    (hb : b = b2) : dfCell df a b = dfCell df a2 b2 := by
  rw [ha, hb]

theorem rangeFrom1_length (n : Int) : (rangeFrom1 n).length = n.toNat := by
  unfold rangeFrom1
  rw [List.length_map, List.length_range]

theorem rangeFrom1_map (n : Int) (f : Int → Int) :
    (rangeFrom1 n).map f =
      (List.range n.toNat).map (fun i : Nat => f ((i : Int) + 1)) := by
  unfold rangeFrom1
  rw [List.map_map]
  rfl

theorem lookScan_eq_spec (m : AoCMap) (st : Option Int) (d : Direction) :
    m.lookScan st d = lookSpecList m (omin st (availSteps m d)) d := by
  cases d <;>
    (simp only [AoCMap.lookScan]
     rw [rangeFrom1_map]
     unfold lookSpecList
     apply map_range_ext
     · cases st <;> simp only [omin, availSteps] <;> omega
     · intro i
       apply dfCell_congr
       · simp only [stepY, dirDy]
         ring
       · simp only [stepX, dirDx]
         ring)

theorem lookScan_pos_length_eq (m : AoCMap) (s : Int) (d : Direction) :
    (m.lookScan (some s) d).length = (min s (availSteps m d)).toNat := by
  rw [lookScan_eq_spec]
  unfold lookSpecList
  rw [List.length_map, List.length_range]
  rfl

theorem look_pos_scan (m : AoCMap) (d : Direction) (s : Int) (hs : 1 ≤ s) :
    m.look (some s) (some d) = LookResult.scan (m.lookScan (some s) d) := by
  unfold AoCMap.look
  dsimp only [Option.getD_some]
  rw [if_neg (show ¬ (s = 0) by omega), if_neg (show ¬ (s < 0) by omega)]

theorem availSteps_nonneg (m : AoCMap) (d : Direction) (hin : InBounds m) :
    0 ≤ availSteps m d := by
  obtain ⟨h1, h2, h3, h4⟩ := hin
  cases d <;> simp only [availSteps] <;> omega

/-- C1: for an in-bounds cursor, a valid direction and `s ≥ 1`,
`look(s, d)` is the ordered list of cell values located `1, ..., k` steps
from the cursor in direction `d` with `k = min(s, steps available to the
boundary along d)` (a diagonal is bounded by the minimum of the two
axis-wise remaining distances); with `steps` omitted the scan runs to the
grid edge (`k = availSteps`); the length of the result is
`min(s, availSteps)`, and the result is empty when zero steps are
available. -/
theorem look_spec (m : AoCMap) (d : Direction) (s : Int)
    (hin : InBounds m) (hs : 1 ≤ s) :
    m.look (some s) (some d) =
      LookResult.scan (lookSpecList m (min s (availSteps m d)) d) ∧
    m.look none (some d) =
      LookResult.scan (lookSpecList m (availSteps m d) d) ∧
    ((lookSpecList m (min s (availSteps m d)) d).length : Int) =
      min s (availSteps m d) ∧
    (availSteps m d = 0 → m.look (some s) (some d) = LookResult.scan []) := by
  have hav := availSteps_nonneg m d hin
  refine ⟨?_, ?_, ?_, ?_⟩
  · rw [look_pos_scan m d s hs]
    exact congrArg LookResult.scan (lookScan_eq_spec m (some s) d)
  · show LookResult.scan (m.lookScan none d) = _
    exact congrArg LookResult.scan (lookScan_eq_spec m none d)
  · unfold lookSpecList
    rw [List.length_map, List.length_range]
    omega
  · intro h0
    rw [look_pos_scan m d s hs]
    refine congrArg LookResult.scan ?_
    rw [lookScan_eq_spec m (some s) d, h0]
    show lookSpecList m (min s 0) d = []
    unfold lookSpecList
    have hmin : (min s (0 : Int)).toNat = 0 := by omega
    rw [hmin]
    rfl

/-- C1 (witness): the claim instantiated on the 3 x 3 sample grid, looking
north-east for up to 5 steps. -/
theorem look_spec_witness :
    InBounds sampleMap ∧ (1 : Int) ≤ 5 ∧
    ((lookSpecList sampleMap (min 5 (availSteps sampleMap Direction.NE))
      Direction.NE).length : Int) =
      min 5 (availSteps sampleMap Direction.NE) :=
  ⟨by decide, by decide,
    (look_spec sampleMap Direction.NE 5 (by decide) (by decide)).2.2.1⟩

theorem walk_pos_eq (m : AoCMap) (d : Direction) (s : Int) (hs : 1 ≤ s) :
    m.walk s (some d) = some { m with
      x := m.x + dirDx d * ((m.lookScan (some s) d).length : Int),
      y := m.y + dirDy d * ((m.lookScan (some s) d).length : Int) } := by
  have hle : ((m.lookScan (some s) d).length : Int) ≤ s := by
    rw [lookScan_pos_length_eq]
    omega
  unfold AoCMap.walk
  dsimp only [Option.getD_some]
  rw [look_pos_scan m d s hs]
  dsimp only [lenLook]
  have hmin : min s ((m.lookScan (some s) d).length : Int) =
      ((m.lookScan (some s) d).length : Int) := by omega
  rw [hmin]
  refine congrArg some ?_
  cases d <;> simp only [dirDx, dirDy] <;> congr 1 <;> ring

/-- C3 (counterexample): the claim quantifies over every `s ≥ 0`, but at
`s = 0` `walk` does not commit a zero-unit move — it fails, because it
takes `len` of the bare integer returned by `look(0, d)`. -/
theorem walk_displacement_counterexample :
    tinyMap.walk 0 (some Direction.E) = none := by decide

/-- C3 (amended): for every `s ≥ 1` and valid direction `d`, `walk(s, d)`
moves the cursor exactly `min(s, len(look(s, d))) = len(look(s, d))` units
along the resolved direction, updating each involved axis by that amount
(diagonals update both axes by the same amount), and leaves the heading
unchanged. -/
theorem walk_displacement_spec (m : AoCMap) (d : Direction) (s : Int)
    (hs : 1 ≤ s) :
    ∃ vs : List Int, m.look (some s) (some d) = LookResult.scan vs ∧
      min s (vs.length : Int) = (vs.length : Int) ∧
      m.walk s (some d) = some { m with
        x := m.x + dirDx d * (vs.length : Int),
        y := m.y + dirDy d * (vs.length : Int) } ∧
      (m.walk s (some d)).map AoCMap.heading = some m.heading := by
  refine ⟨m.lookScan (some s) d, look_pos_scan m d s hs, ?_,
    walk_pos_eq m d s hs, ?_⟩
  · rw [lookScan_pos_length_eq]
    omega
  · rw [walk_pos_eq m d s hs]
    rfl

/-- C3 (witness): the amended claim instantiated on the demonstration grid,
walking east 2 steps from the origin. -/
theorem walk_displacement_spec_witness :
    (1 : Int) ≤ 2 ∧
    ∃ vs : List Int, demoMap.look (some 2) (some Direction.E) =
        LookResult.scan vs ∧
      min 2 (vs.length : Int) = (vs.length : Int) ∧
      demoMap.walk 2 (some Direction.E) = some { demoMap with
        x := demoMap.x + dirDx Direction.E * (vs.length : Int),
        y := demoMap.y + dirDy Direction.E * (vs.length : Int) } ∧
      (demoMap.walk 2 (some Direction.E)).map AoCMap.heading =
        some demoMap.heading :=
  ⟨by decide, walk_displacement_spec demoMap Direction.E 2 (by decide)⟩

/-- C4 (counterexample): the claim quantifies over every integer `steps`,
but a negative step count commits a negative `path_length` and walks the
cursor off the edge: on a 1 x 1 grid, `walk(-1, E)` moves the cursor to
`x = -1`, outside `[0, width)`. -/
theorem walk_bounds_counterexample :
    tinyMap.walk (-1) (some Direction.E) = some { tinyMap with x := -1 } ∧
    ((tinyMap.walk (-1) (some Direction.E)).map
      (fun m2 => decide (0 ≤ m2.x ∧ m2.x < m2.x_max))) = some false :=
  ⟨by decide, by decide⟩

/-- C4 (amended): for every grid, in-bounds starting cursor, valid
direction and step count `s ≥ 1`, `walk` succeeds and the cursor still
satisfies `x ∈ [0, width)` and `y ∈ [0, height)`: walking off the edge is
impossible and the cursor stops at the boundary. -/
theorem walk_stays_in_bounds (m : AoCMap) (d : Direction) (s : Int)
    (hs : 1 ≤ s) (hin : InBounds m) :
    (m.walk s (some d)).isSome = true ∧
    ∀ m2, m.walk s (some d) = some m2 →
      0 ≤ m2.x ∧ m2.x < m.x_max ∧ 0 ≤ m2.y ∧ m2.y < m.y_max := by
  obtain ⟨h1, h2, h3, h4⟩ := hin
  rw [walk_pos_eq m d s hs]
  refine ⟨rfl, ?_⟩
  intro m2 hm2
  injection hm2 with hm2
  subst hm2
  have hL := lookScan_pos_length_eq m s d
  cases d <;>
    (simp only [availSteps] at hL
     simp only [dirDx, dirDy, hL]
     refine ⟨by omega, by omega, by omega, by omega⟩)

/-- C4 (witness): the amended claim instantiated on the 3 x 3 sample grid,
walking 2 steps south-west from the centre. -/
theorem walk_stays_in_bounds_witness :
    (1 : Int) ≤ 2 ∧ InBounds sampleMap ∧
    (0 ≤ ({ sampleMap with x := 0, y := 2 } : AoCMap).x ∧
      ({ sampleMap with x := 0, y := 2 } : AoCMap).x < sampleMap.x_max ∧
      0 ≤ ({ sampleMap with x := 0, y := 2 } : AoCMap).y ∧
      ({ sampleMap with x := 0, y := 2 } : AoCMap).y < sampleMap.y_max) :=
  ⟨by decide, by decide,
    (walk_stays_in_bounds sampleMap Direction.SW 2 (by decide) (by decide)).2
      { sampleMap with x := 0, y := 2 } (by decide)⟩

/-- C8: `get(x, y)` succeeds and returns the cell value exactly on
`[0, width) x [0, height)`; outside that range (negative coordinates
included) `get`, `set` and the Navigator position setter all fail with
OutOfBounds and, the bounds checks running before any mutation, have no
side effect — the prior grid and cursor persist unchanged. -/
theorem bounds_error_spec (m : AoCMap) (x y : Int) :
    ((0 ≤ x ∧ x < m.x_max ∧ 0 ≤ y ∧ y < m.y_max) →
      m.getItem x y = Except.ok (dfCell m.df y x)) ∧
    (¬ (0 ≤ x ∧ x < m.x_max ∧ 0 ≤ y ∧ y < m.y_max) →
      m.getItem x y = Except.error MapError.OutOfBounds ∧
      (∀ v : Int, m.setItem x y v = Except.error MapError.OutOfBounds) ∧
      m.setPosition (x, y) = Except.error MapError.OutOfBounds) := by
  constructor
  · intro h
    unfold AoCMap.getItem
    rw [if_neg (by tauto)]
  · intro h
    have hcond : ¬ (0 ≤ x ∧ x < m.x_max) ∨ ¬ (0 ≤ y ∧ y < m.y_max) := by
      tauto
    refine ⟨?_, fun v => ?_, ?_⟩
    · unfold AoCMap.getItem
      rw [if_pos hcond]
    · unfold AoCMap.setItem
      rw [if_pos hcond]
    · unfold AoCMap.setPosition
      have hcond2 : ¬ (m.encloses (x, y).1 (x, y).2 = true) := by
        simp only [AoCMap.encloses, Bool.and_eq_true, decide_eq_true_eq]
        rintro ⟨⟨ha, hb⟩, hc, hd⟩
        exact h ⟨ha, hb, hc, hd⟩
      rw [if_pos hcond2]

/-- C8 (witness): the claim instantiated on the 3 x 3 sample grid, reading
the in-range cell `(2, 2)` and probing the out-of-range column `-1`. -/
theorem bounds_error_spec_witness :
    sampleMap.getItem 2 2 = Except.ok (dfCell sampleMap.df 2 2) ∧
    sampleMap.getItem (-1) 0 = Except.error MapError.OutOfBounds :=
  ⟨(bounds_error_spec sampleMap 2 2).1 (by decide),
    ((bounds_error_spec sampleMap (-1) 0).2 (by decide)).1⟩

/-! Helper lemmas about `update` and its write loops. -/

theorem getD_mem {α : Type} (l : List α) (j : Nat) (d : α) (h : j < l.length) :
    l.getD j d ∈ l := by
  induction l generalizing j with
  | nil => simp at h
  | cons x xs ih =>
      cases j with
      | zero => exact List.mem_cons_self _ _
      | succ k => exact List.mem_cons_of_mem _ (ih k (by simpa using h))

theorem writeCells_succ (df : List (List Int)) (values : List Int)
    (py px : Nat → Int) (n : Nat) :
    writeCells df values py px (n + 1) =
      dfSet (writeCells df values py px n) (py n) (px n) (values.getD n 0) := by
  unfold writeCells
  rw [List.range_succ, List.foldl_append]
  rfl

theorem length_writeCells (df : List (List Int)) (values : List Int)
    (py px : Nat → Int) (n : Nat) :
    (writeCells df values py px n).length = df.length := by
  induction n with
  | zero => rfl
  | succ k ih => rw [writeCells_succ, length_dfSet, ih]

theorem rowLength_writeCells (df : List (List Int)) (values : List Int)
    (py px : Nat → Int) (n : Nat) (j : Nat) :
    ((writeCells df values py px n).getD j []).length =
      ((df.getD j []).length) := by
  induction n with
  | zero => rfl
  | succ k ih => rw [writeCells_succ, rowLength_dfSet, ih]

theorem writeCells_cell_untouched (df : List (List Int)) (values : List Int)
    (py px : Nat → Int) (n : Nat) (qy qx : Int)
    (hq : ∀ i, i < n → (py i).toNat ≠ qy.toNat ∨ (px i).toNat ≠ qx.toNat) :
    dfCell (writeCells df values py px n) qy qx = dfCell df qy qx := by
  induction n with
  | zero => rfl
  | succ k ih =>
      rw [writeCells_succ]
      rw [dfCell_dfSet_other _ _ _ _ _ _ (hq k (by omega))]
      exact ih (fun i hi => hq i (by omega))

theorem writeCells_cell_written (df : List (List Int)) (values : List Int)
    (py px : Nat → Int) (n : Nat)
    (hval : ∀ i, i < n → (py i).toNat < df.length ∧
      (px i).toNat < (df.getD (py i).toNat []).length)
    (hinj : ∀ i j, i < n → j < n → i ≠ j →
      (py i).toNat ≠ (py j).toNat ∨ (px i).toNat ≠ (px j).toNat)
    (k : Nat) (hk : k < n) :
    dfCell (writeCells df values py px n) (py k) (px k) = values.getD k 0 := by
  induction n with
  | zero => omega
  | succ t ih =>
      rw [writeCells_succ]
      by_cases hkt : k = t
      · subst hkt
        apply dfCell_dfSet_self
        · rw [length_writeCells]
          exact (hval k (by omega)).1
        · rw [rowLength_writeCells]
          exact (hval k (by omega)).2
      · rw [dfCell_dfSet_other _ _ _ _ _ _
          (hinj t k (by omega) (by omega) (by omega))]
        exact ih (fun i hi => hval i (by omega))
          (fun i j hi hj hij => hinj i j (by omega) (by omega) hij) (by omega)

theorem writeCells_written_int (df : List (List Int)) (values : List Int)
    (py px : Nat → Int) (n : Nat)
    (hbnd : ∀ i, i < n → 0 ≤ py i ∧ py i < (df.length : Int) ∧ 0 ≤ px i ∧
      px i < ((df.getD (py i).toNat []).length : Int))
    (hdiff : ∀ i j, i < n → j < n → i ≠ j → py i ≠ py j ∨ px i ≠ px j)
    (k : Nat) (hk : k < n) :
    dfCell (writeCells df values py px n) (py k) (px k) = values.getD k 0 := by
  apply writeCells_cell_written df values py px n
  · intro i hi
    obtain ⟨a, b, c, e⟩ := hbnd i hi
    exact ⟨by omega, by omega⟩
  · intro i j hi hj hij
    obtain ⟨a, b, c, e⟩ := hbnd i hi
    obtain ⟨a2, b2, c2, e2⟩ := hbnd j hj
    rcases hdiff i j hi hj hij with h | h
    · exact Or.inl (by omega)
    · exact Or.inr (by omega)
  · exact hk

theorem writeCells_untouched_int (df : List (List Int)) (values : List Int)
    (py px : Nat → Int) (n : Nat) (qy qx : Int)
    (hq0 : 0 ≤ qy) (hq1 : 0 ≤ qx)
    (hbnd : ∀ i, i < n → 0 ≤ py i ∧ 0 ≤ px i)
    (hq : ∀ i, i < n → ¬ (py i = qy ∧ px i = qx)) :
    dfCell (writeCells df values py px n) qy qx = dfCell df qy qx := by
  apply writeCells_cell_untouched
  intro i hi
  obtain ⟨a, b⟩ := hbnd i hi
  have hne := hq i hi
  by_cases hpy : py i = qy
  · have : ¬ px i = qx := fun hc => hne ⟨hpy, hc⟩
    exact Or.inr (by omega)
  · exact Or.inl (by omega)

theorem writeCells_congr (df : List (List Int)) (values : List Int)
    (py1 py2 px1 px2 : Nat → Int) (n1 n2 : Nat)
    (hpy : ∀ i, py1 i = py2 i) (hpx : ∀ i, px1 i = px2 i) (hn : n1 = n2) :
    writeCells df values py1 px1 n1 = writeCells df values py2 px2 n2 := by
  subst hn
  rw [funext hpy, funext hpx]

theorem update_cursor (m : AoCMap) (values : List Int) (o : Int)
    (dir : Option Direction) :
    (m.update values o dir).x = m.x ∧ (m.update values o dir).y = m.y ∧
    (m.update values o dir).heading = m.heading := by
  unfold AoCMap.update
  cases hd : (if o < 0 then (dir.getD m.heading).reverse else dir.getD m.heading) <;>
    (dsimp only
     rw [hd]
     exact ⟨rfl, rfl, rfl⟩)

theorem update_neg_offset (m : AoCMap) (values : List Int) (o : Int)
    (d : Direction) (ho : o < 0) :
    m.update values o (some d) = m.update values (-o) (some d.reverse) := by
  unfold AoCMap.update
  dsimp only [Option.getD_some]
  rw [if_pos ho, if_pos ho, if_neg (show ¬ (-o < 0) by omega),
    if_neg (show ¬ (-o < 0) by omega)]

theorem update_nonneg_eq (m : AoCMap) (values : List Int) (o : Int)
    (d : Direction) (ho : 0 ≤ o) :
    m.update values o (some d) = { m with df := (writeCells m.df values
      (fun i : Nat => stepY m d ((i : Int) + o))
      (fun i : Nat => stepX m d ((i : Int) + o))
      (min ((values.length : Int)) (availBeyond m o d)).toNat) } := by
  unfold AoCMap.update
  dsimp only [Option.getD_some]
  rw [if_neg (show ¬ (o < 0) by omega), if_neg (show ¬ (o < 0) by omega)]
  cases d <;>
    (dsimp only
     refine congrArg (fun dd => { m with df := dd }) ?_
     apply writeCells_congr
     · intro i
       simp only [stepY, dirDy]
       ring
     · intro i
       simp only [stepX, dirDx]
       ring
     · simp only [availBeyond] <;> omega)

theorem update_nil (m : AoCMap) (o : Int) (d : Direction) :
    m.update [] o (some d) = m := by
  have key : ∀ (d2 : Direction) (o2 : Int), 0 ≤ o2 →
      m.update [] o2 (some d2) = m := by
    intro d2 o2 ho2
    rw [update_nonneg_eq m [] o2 d2 ho2]
    have hK : (min ((([] : List Int).length : Int))
        (availBeyond m o2 d2)).toNat = 0 := by
      have h : (([] : List Int).length : Int) = 0 := rfl
      omega
    rw [hK]
    rfl
  by_cases ho : o < 0
  · rw [update_neg_offset m [] o d ho]
    exact key d.reverse (-o) (by omega)
  · exact key d o (by omega)

/-- C2: for an in-bounds cursor on a rectangular grid, a valid direction
`d` and offset `o`, `update(values, o, d)` leaves the cursor position and
heading unchanged; `update([], o, d)` never mutates the grid; a negative
offset reverses `d` and proceeds with `|o|`; and for `o ≥ 0` it writes
`values[i]` into the cell `o + i` steps from the cursor in direction `d`
for exactly `i = 0 .. min(len(values), available steps beyond o) - 1`,
left-to-right in `values` order, silently dropping (never raising on) the
suffix of `values` that does not fit, and leaving every other cell
unchanged. -/
theorem update_spec (m : AoCMap) (values : List Int) (o : Int) (d : Direction)
    (hin : InBounds m) (hrect : IsRect m) :
    ((m.update values o (some d)).x = m.x ∧
      (m.update values o (some d)).y = m.y ∧
      (m.update values o (some d)).heading = m.heading) ∧
    m.update [] o (some d) = m ∧
    (o < 0 →
      m.update values o (some d) = m.update values (-o) (some d.reverse)) ∧
    (0 ≤ o →
      (∀ i : Nat,
        ((i : Int)) < min ((values.length : Int)) (availBeyond m o d) →
        dfCell (m.update values o (some d)).df (stepY m d ((i : Int) + o))
          (stepX m d ((i : Int) + o)) = values.getD i 0) ∧
      (∀ qy qx : Int, 0 ≤ qy → 0 ≤ qx →
        (∀ i : Nat,
          ((i : Int)) < min ((values.length : Int)) (availBeyond m o d) →
          ¬ (stepY m d ((i : Int) + o) = qy ∧
            stepX m d ((i : Int) + o) = qx)) →
        dfCell (m.update values o (some d)).df qy qx = dfCell m.df qy qx)) := by
  obtain ⟨h1, h2, h3, h4⟩ := hin
  have hxm : m.x_max = ((m.df.headD []).length : Int) := rfl
  have hym : m.y_max = (m.df.length : Int) := rfl
  rw [hxm] at h2
  rw [hym] at h4
  have hrow : ∀ j : Nat, j < m.df.length →
      ((m.df.getD j []).length : Int) = ((m.df.headD []).length : Int) :=
    fun j hj => (hrect _ (getD_mem m.df j [] hj)).trans hxm
  refine ⟨update_cursor m values o (some d), update_nil m o d,
    fun ho => update_neg_offset m values o d ho, fun ho => ?_⟩
  have hbnd : ∀ i : Nat,
      i < (min ((values.length : Int)) (availBeyond m o d)).toNat →
      0 ≤ stepY m d ((i : Int) + o) ∧
      stepY m d ((i : Int) + o) < (m.df.length : Int) ∧
      0 ≤ stepX m d ((i : Int) + o) ∧
      stepX m d ((i : Int) + o) <
        ((m.df.getD (stepY m d ((i : Int) + o)).toNat []).length : Int) := by
    intro i hi
    have hy2 : 0 ≤ stepY m d ((i : Int) + o) ∧
        stepY m d ((i : Int) + o) < (m.df.length : Int) := by
      cases d <;>
        (simp only [availBeyond, AoCMap.x_max, AoCMap.y_max] at hi
         simp only [stepY, dirDy]
         omega)
    have hr := hrow (stepY m d ((i : Int) + o)).toNat (by omega)
    refine ⟨hy2.1, hy2.2, ?_, ?_⟩ <;>
      (cases d <;>
        (simp only [availBeyond, AoCMap.x_max, AoCMap.y_max] at hi
         simp only [stepX, dirDx] at hr ⊢
         omega))
  have hdiff : ∀ i j : Nat,
      i < (min ((values.length : Int)) (availBeyond m o d)).toNat →
      j < (min ((values.length : Int)) (availBeyond m o d)).toNat → i ≠ j →
      stepY m d ((i : Int) + o) ≠ stepY m d ((j : Int) + o) ∨
      stepX m d ((i : Int) + o) ≠ stepX m d ((j : Int) + o) := by
    intro i j hi hj hij
    cases d <;>
      (simp only [stepY, stepX, dirDy, dirDx]
       first
        | exact Or.inl (by omega)
        | exact Or.inr (by omega))
  refine ⟨?_, ?_⟩
  · intro i hi
    rw [update_nonneg_eq m values o d ho]
    exact writeCells_written_int m.df values _ _ _ hbnd hdiff i (by omega)
  · intro qy qx hqy hqx hnone
    rw [update_nonneg_eq m values o d ho]
    apply writeCells_untouched_int m.df values _ _ _ qy qx hqy hqx
    · intro i hi
      obtain ⟨a, b, c, e⟩ := hbnd i hi
      exact ⟨a, c⟩
    · intro i hi
      exact hnone i (by omega)

/-- C2 (witness): the claim instantiated on the 3 x 3 sample grid, writing
`[7, 8]` eastward at offset 0 — the first value lands on the cursor
cell. -/
theorem update_spec_witness :
    InBounds sampleMap ∧ IsRect sampleMap ∧ (0 : Int) ≤ 0 ∧
    ((0 : Nat) : Int) < min ((([7, 8] : List Int).length : Int))
      (availBeyond sampleMap 0 Direction.E) ∧
    dfCell (sampleMap.update [7, 8] 0 (some Direction.E)).df
      (stepY sampleMap Direction.E (((0 : Nat) : Int) + 0))
      (stepX sampleMap Direction.E (((0 : Nat) : Int) + 0)) =
      ([7, 8] : List Int).getD 0 0 :=
  ⟨by decide, by decide, by decide, by decide,
    ((update_spec sampleMap [7, 8] 0 Direction.E (by decide) (by decide)).2.2.2
      (by decide)).1 0 (by decide)⟩

/-- C7 (witness): the amended claim instantiated at heading N. -/
theorem rotate_inverse_spec_witness :
    tinyMap.heading = Direction.N ∧
    (tinyMap.rotate 45).heading = Direction.NE ∧
    (tinyMap.rotate (-45)).heading = Direction.NW :=
  ⟨rfl, (rotate_inverse_spec tinyMap).2.1 rfl⟩
